import Mathlib

/-!
Verification of the colin-api business model and the legal-api filing
validation and submission code of the lear repository.

Dates and timestamps are modelled as natural numbers: only their ordering
matters to the code under study.  Database null is modelled as `Option.none`.
An Oracle date arriving through the driver is a Python datetime object, and a
datetime object is always truthy, so Python truthiness of a date column
coincides with the column being non-null; the embedding uses `Option` with
that reading throughout.
-/

namespace Lear

/-- One entry of the `event_info` argument of
`Business._get_last_ar_dates_for_reset`: a corp number together with the
event id that happened on it. -/
structure EventInfo where
  corp_num : String
  event_id : Nat
deriving DecidableEq, Repr

/-- One row of the `EVENT join FILING` result set walked by
`Business._get_last_ar_dates_for_reset`: corp number, event timestamp and
the two nullable filing date columns. -/
structure FERow where
  corp_num : String
  event_timestmp : Nat
  period_end_dt : Option Nat
  agm_date : Option Nat
deriving DecidableEq, Repr

/-- The `dates` dictionary accumulated by the walk in
`Business._get_last_ar_dates_for_reset`.  A key that has not been inserted
yet is `none`; the walk only ever stores non-null (hence truthy) values, so
`none` coincides with Python key absence. -/
structure Dates where
  corp_num : String
  event_date : Option Nat
  ar_date : Option Nat
  ar_filed_date : Option Nat
  agm_date : Option Nat
deriving DecidableEq, Repr

/-- The first conditional of the walk body:
`if event_date not in dates or dates[event_date] < row[event_timestmp]`. -/
def stepEventDate (d : Dates) (r : FERow) : Dates :=
  match d.event_date with
  | none => { d with event_date := some r.event_timestmp }
  | some e =>
      if e < r.event_timestmp then { d with event_date := some r.event_timestmp } else d

/-- The second conditional of the walk body:
`if row[period_end_dt] and (ar_date not in dates or dates[ar_date] < row[period_end_dt])`,
which sets both `ar_date` and `ar_filed_date`. -/
def stepArDate (d : Dates) (r : FERow) : Dates :=
  match r.period_end_dt with
  | none => d
  | some p =>
      match d.ar_date with
      | none => { d with ar_date := some p, ar_filed_date := some r.event_timestmp }
      | some a =>
          if a < p then { d with ar_date := some p, ar_filed_date := some r.event_timestmp }
          else d

/-- The third conditional of the walk body:
`if row[agm_date] and (agm_date not in dates or dates[agm_date] < row[agm_date])`. -/
def stepAgmDate (d : Dates) (r : FERow) : Dates :=
  match r.agm_date with
  | none => d
  | some g =>
      match d.agm_date with
      | none => { d with agm_date := some g }
      | some c => if c < g then { d with agm_date := some g } else d

/-- One iteration of `for row in cursor.fetchall()` in
`Business._get_last_ar_dates_for_reset`: the three conditionals in source
order. -/
def walkStep (d : Dates) (r : FERow) : Dates :=
  stepAgmDate (stepArDate (stepEventDate d r) r) r

/-- The `events_by_corp_num` dictionary built at the top of
`Business._get_last_ar_dates_for_reset`, as an insertion-ordered
association list: a corp number is appended on first sight and its value is
lowered in place whenever a smaller event id is seen. -/
def eventsByCorpNum (event_info : List EventInfo) : List (String × Nat) :=
  event_info.foldl
    (fun acc info =>
      match acc.find? (fun p => p.1 == info.corp_num) with
      | none => acc ++ [(info.corp_num, info.event_id)]
      | some p =>
          if p.2 > info.event_id then
            acc.map (fun q => if q.1 == info.corp_num then (q.1, info.event_id) else q)
          else acc)
    []

/-- The dictionary `dates = ... corp_num ...` the walk starts from. -/
def emptyDates (corp_num : String) : Dates :=
  { corp_num := corp_num, event_date := none, ar_date := none
    ar_filed_date := none, agm_date := none }

/-- `Business._get_last_ar_dates_for_reset` (the leading underscore of the
source name is dropped).  The cursor is abstracted as `query`: applied to
the excluded event ids and a corp number it returns the row sequence the
database produces for the SQL text in the source (Filing/Event rows of that
corp number, the excluded ids removed, ordered by event timestamp
descending). -/
def get_last_ar_dates_for_reset (query : List Nat → String → List FERow)
    (event_info : List EventInfo) (event_ids : List Nat) : List Dates :=
  (eventsByCorpNum event_info).map
    (fun p => (query event_ids p.1).foldl walkStep (emptyDates p.1))

/-- Python dictionary access `item[key]` on the dates dictionary: a missing
key raises `KeyError`. -/
def dictGet (v : Option Nat) (key : String) : Except String Nat :=
  match v with
  | some x => Except.ok x
  | none => Except.error ("KeyError: " ++ key)

/-- The `agm_date` keyword argument of the UPDATE in
`Business.reset_corporations`: the expression
`item[agm_date] if item[agm_date] else item[ar_date]`.  The lookup
`item[agm_date]` is evaluated first and raises `KeyError` when the key is
absent; when the lookup succeeds the stored value is a date, hence truthy,
so the conditional yields the looked-up value and the `item[ar_date]`
fallback branch is unreachable. -/
def resetAgmArg (item : Dates) : Except String Nat :=
  dictGet item.agm_date "agm_date"

/-- The row update executed by `Business.reset_corporations` for one
corporation: the new values of the three date columns of `CORPORATION`. -/
structure CorpUpdate where
  corp_num : String
  last_ar_filed_dt : Nat
  last_agm_date : Nat
  last_ledger_dt : Nat
deriving DecidableEq, Repr

/-- The UPDATE statement of `Business.reset_corporations` for one item of
`dates_by_corp_num`, with the keyword arguments evaluated in source order
(`agm_date`, then `ar_filed_date`, then `event_date`, then `corp_num`). -/
def resetCorpUpdate (item : Dates) : Except String CorpUpdate := do
  let agm ← resetAgmArg item
  let ar_filed ← dictGet item.ar_filed_date "ar_filed_date"
  let ev ← dictGet item.event_date "event_date"
  Except.ok
    { corp_num := item.corp_num, last_ar_filed_dt := ar_filed
      last_agm_date := agm, last_ledger_dt := ev }

/-- `Business.reset_corporations`: early return on an empty `event_info`,
otherwise recover the dates and perform one UPDATE per affected corp
number, aborting on the first failure.  The returned list is the sequence
of row updates executed against the `CORPORATION` table. -/
def reset_corporations (query : List Nat → String → List FERow)
    (event_info : List EventInfo) (event_ids : List Nat) :
    Except String (List CorpUpdate) :=
  if event_info.length < 1 then Except.ok []
  else (get_last_ar_dates_for_reset query event_info event_ids).mapM resetCorpUpdate

/-- One row of the `CORP_STATE` table: a temporal interval record with a
nullable `end_event_id` (null means currently active). -/
structure CorpStateRow where
  corp_num : String
  start_event_id : Nat
  end_event_id : Option Nat
  state_typ_cd : String
deriving DecidableEq, Repr

/-- Whether a `CORP_STATE` row is the active row of the given corp number
(`end_event_id is null`). -/
def activeFor (corp_num : String) (r : CorpStateRow) : Bool :=
  r.corp_num == corp_num && r.end_event_id == none

/-- `Business.update_corp_state`: the UPDATE ends every active row of the
corp number with the event id, then the INSERT appends a fresh row with
that event id as `start_event_id` and a null `end_event_id`. -/
def update_corp_state (table : List CorpStateRow) (event_id : Nat)
    (corp_num : String) (state : String) : List CorpStateRow :=
  table.map
    (fun r =>
      if r.corp_num == corp_num && r.end_event_id == none then
        { r with end_event_id := some event_id }
      else r)
  ++ [{ corp_num := corp_num, start_event_id := event_id, end_event_id := none
        state_typ_cd := state }]

/-- `Business.reset_corp_states`: early return on an empty id list,
otherwise DELETE the rows started on one of the events and then clear the
`end_event_id` of the rows ended on one of them (SQL `in` on a null
`end_event_id` does not match). -/
def reset_corp_states (table : List CorpStateRow) (event_ids : List Nat) :
    List CorpStateRow :=
  if event_ids.length < 1 then table
  else
    (table.filter (fun r => !(event_ids.contains r.start_event_id))).map
      (fun r =>
        match r.end_event_id with
        | some e => if event_ids.contains e then { r with end_event_id := none } else r
        | none => r)

/-- The joined row fetched by the main query of
`Business.find_by_identifier` (one row per matching corporation; the joins
themselves happen in the database and are abstracted into the row).  The
field `type` carries the aliased `corp_typ_cd` column. -/
structure CorpRow where
  identifier : String
  type : String
  can_jur_typ_cd : Option String
  othr_juris_desc : Option String
  state : String
  last_ar_filed_date : Option Nat
  last_agm_date : Option Nat
  legal_name : Option String
  assumed_name : Option String
deriving DecidableEq, Repr

/-- The row selection of the main query of `Business.find_by_identifier`:
`where corp_typ_cd = CP and corp.CORP_NUM = :corp_num`, with `fetchone`
taking the first row of the result. -/
def mainQuery (rows : List CorpRow) (identifier : String) : Option CorpRow :=
  (rows.filter (fun r => r.type == "CP" && r.identifier == identifier)).head?

/-- The jurisdiction assignment of `Business.find_by_identifier`: an XPRO
corporation with jurisdiction code OT takes the free-text description,
any other XPRO takes its jurisdiction code, and everything else is BC. -/
def jurisdictionOf (row : CorpRow) : Option String :=
  if row.type = "XCP" then
    if row.can_jur_typ_cd = some "OT" then row.othr_juris_desc
    else row.can_jur_typ_cd
  else some "BC"

/-- The status assignment of `Business.find_by_identifier`: In Good
Standing when the state description is Active, both dates are non-null
datetimes (a non-null date column always satisfies the isinstance checks of
the source) and the last AR filed date is strictly after the last AGM date;
otherwise the raw state description. -/
def deriveStatus (state : String) (last_ar_filed_date last_agm_date : Option Nat) :
    String :=
  match last_ar_filed_date, last_agm_date with
  | some a, some g =>
      if state = "Active" then
        if a > g then "In Good Standing" else state
      else state
  | _, _ => state

/-- The errors raised out of `Business.find_by_identifier`: the
`BusinessNotFoundException` raised when `fetchone` returns nothing, or a
database failure, logged and re-raised unchanged by the catch-all handler. -/
inductive FindErr where
  | notFound (identifier : String)
  | db (e : String)
deriving DecidableEq, Repr

/-- The resolved business record assembled by
`Business.find_by_identifier` (the fields the claims are about). -/
structure BusinessRec where
  identifier : String
  jurisdiction : Option String
  legalName : Option String
  status : String
  lastLedgerTimestamp : Option Nat
deriving DecidableEq, Repr

/-- The record assembly of `Business.find_by_identifier`: jurisdiction,
name preference (a non-null, non-empty assumed name replaces the legal
name) and status derivation. -/
def buildBusiness (row : CorpRow) (last_ledger_timestamp : Option Nat) :
    BusinessRec :=
  { identifier := row.identifier
    jurisdiction := jurisdictionOf row
    legalName :=
      match row.assumed_name with
      | some an => if an = "" then row.legal_name else some an
      | none => row.legal_name
    status := deriveStatus row.state row.last_ar_filed_date row.last_agm_date
    lastLedgerTimestamp := last_ledger_timestamp }

/-- `Business.find_by_identifier`.  A falsy identifier (Python `None` or
the empty string) returns `None` before any database work.  The database
is abstracted as the outcome of the two cursor executions: `db` is the
driver outcome of the main query (a row list on success) and `ledger` the
outcome of the max-event-timestamp query.  A driver failure is re-raised
unchanged; a fetched empty result raises `BusinessNotFoundException`. -/
def find_by_identifier (db : Except String (List CorpRow))
    (ledger : Except String (Option Nat)) (identifier : Option String) :
    Except FindErr (Option BusinessRec) :=
  match identifier with
  | none => Except.ok none
  | some ident =>
      if ident = "" then Except.ok none
      else
        match db with
        | Except.error e => Except.error (FindErr.db e)
        | Except.ok rows =>
            match mainQuery rows ident with
            | none => Except.error (FindErr.notFound ident)
            | some row =>
                match ledger with
                | Except.error e => Except.error (FindErr.db e)
                | Except.ok ts => Except.ok (some (buildBusiness row ts))

/-- A structured validation error returned by a filing validator. -/
structure VError where
  msg : String
deriving DecidableEq, Repr

/-- Modelled from the spec: the filing-type registry `Filing.FILINGS` of
the legal-api `Filing` model (the model itself is not part of the studied
sources).  Its keys are the known filing types with a dedicated validator,
and the `name` entry of each registry value is the type key itself. -/
def FILINGS : List String := ["annualReport", "changeOfAddress", "changeOfDirectors"]

/-- The outcomes of the generic schema check and of the three dedicated
validators on the document under validation (the validator bodies live in
their own modules and are abstracted into their results). -/
structure ValidatorResults where
  schema : Option VError
  annualReport : Option VError
  changeOfAddress : Option VError
  changeOfDirectors : Option VError
deriving DecidableEq, Repr

/-- The dispatch chain of `validation.validate`: the `k == ...` ladder
selecting the dedicated validator for a registry key. -/
def dispatchValidator (v : ValidatorResults) (k : String) : Option VError :=
  if k = "annualReport" then v.annualReport
  else if k = "changeOfAddress" then v.changeOfAddress
  else if k = "changeOfDirectors" then v.changeOfDirectors
  else none

/-- The `for k in filing_json[filing].keys()` loop of
`validation.validate`: keys outside the registry are skipped, a registry
key runs its validator and the first error returned ends the loop. -/
def validateKeys (v : ValidatorResults) : List String → Option VError
  | [] => none
  | k :: ks =>
      if FILINGS.contains k then
        match dispatchValidator v k with
        | some e => some e
        | none => validateKeys v ks
      else validateKeys v ks

/-- `validation.validate`: the generic schema check short-circuits with its
own error, otherwise the keys of the filing document are walked in their
encountered order. -/
def validate (v : ValidatorResults) (keys : List String) : Option VError :=
  match v.schema with
  | some e => some e
  | none => validateKeys v keys

/-- The filing row as far as the submission flow observes it: its JSON
rendering and the payment token column (null until an invoice is
created). -/
structure PFiling where
  fjson : List (String × String)
  payment_token : Option Nat
deriving DecidableEq, Repr

/-- The outcome of the POST to the external payment service inside
`ListFilingResource._create_invoice`: a connection failure or a response
carrying the invoice id. -/
inductive PayOutcome where
  | connError
  | success (pid : Nat)
deriving DecidableEq, Repr

/-- `ListFilingResource._create_invoice`: a connection failure is logged
and turned into the pair of an error message and HTTP 402, leaving the
filing untouched; on success the invoice id is stored as the payment token
and the filing saved again. -/
def create_invoice (filing : PFiling) (pay : PayOutcome) :
    PFiling × Option (String × Nat) :=
  match pay with
  | PayOutcome.connError =>
      (filing, some ("unable to create invoice for payment.", 402))
  | PayOutcome.success pid => ({ filing with payment_token := some pid }, none)

/-- The tail of `ListFilingResource.put` after the filing row has been
persisted by `_save_filing`: unless the draft flag is set, create the
invoice; an invoice error is answered with the filing JSON plus an errors
entry under that error code, success with the filing JSON under 201 (POST)
or 202 (PUT).  The returned triple is the final filing row state, the
response body and the response code. -/
def putAfterSave (filing : PFiling) (isDraft : Bool) (isPost : Bool)
    (pay : PayOutcome) : PFiling × List (String × String) × Nat :=
  if isDraft then (filing, filing.fjson, if isPost then 201 else 202)
  else
    match create_invoice filing pay with
    | (f, some (msg, code)) => (f, f.fjson ++ [("errors", msg)], code)
    | (f, none) => (f, f.fjson, if isPost then 201 else 202)

/-! ### Component decomposition of the reset-dates walk -/

/-- The accumulator step a single walk conditional performs on one tracked
date: keep the current value unless the incoming one is strictly larger
(first-seen value wins ties). -/
def maxStep (acc : Option Nat) (x : Nat) : Option Nat :=
  match acc with
  | none => some x
  | some a => if a < x then some x else acc

/-- `maxStep` through a nullable column: a null value is skipped. -/
def optMaxStep (acc : Option Nat) (v : Option Nat) : Option Nat :=
  match v with
  | none => acc
  | some x => maxStep acc x

/-- The paired accumulator step for `ar_date` and `ar_filed_date`: a
strictly larger period-end date replaces both members of the pair. -/
def arPairStep (acc : Option Nat × Option Nat) (r : FERow) :
    Option Nat × Option Nat :=
  match r.period_end_dt with
  | none => acc
  | some p =>
      match acc.1 with
      | none => (some p, some r.event_timestmp)
      | some a => if a < p then (some p, some r.event_timestmp) else acc

theorem stepEventDate_corp_num (d : Dates) (r : FERow) :
    (stepEventDate d r).corp_num = d.corp_num := by
  unfold stepEventDate
  split
  · rfl
  · split <;> rfl

theorem stepArDate_corp_num (d : Dates) (r : FERow) :
    (stepArDate d r).corp_num = d.corp_num := by
  unfold stepArDate
  split
  · rfl
  · split
    · rfl
    · split <;> rfl

theorem stepAgmDate_corp_num (d : Dates) (r : FERow) :
    (stepAgmDate d r).corp_num = d.corp_num := by
  unfold stepAgmDate
  split
  · rfl
  · split
    · rfl
    · split <;> rfl

theorem walkStep_corp_num (d : Dates) (r : FERow) :
    (walkStep d r).corp_num = d.corp_num := by
  unfold walkStep
  rw [stepAgmDate_corp_num, stepArDate_corp_num, stepEventDate_corp_num]

theorem stepEventDate_event_date (d : Dates) (r : FERow) :
    (stepEventDate d r).event_date = maxStep d.event_date r.event_timestmp := by
  unfold stepEventDate maxStep
  split
  · rfl
  · split <;> rfl

theorem stepArDate_event_date (d : Dates) (r : FERow) :
    (stepArDate d r).event_date = d.event_date := by
  unfold stepArDate
  split
  · rfl
  · split
    · rfl
    · split <;> rfl

theorem stepAgmDate_event_date (d : Dates) (r : FERow) :
    (stepAgmDate d r).event_date = d.event_date := by
  unfold stepAgmDate
  split
  · rfl
  · split
    · rfl
    · split <;> rfl

theorem walkStep_event_date (d : Dates) (r : FERow) :
    (walkStep d r).event_date = maxStep d.event_date r.event_timestmp := by
  unfold walkStep
  rw [stepAgmDate_event_date, stepArDate_event_date, stepEventDate_event_date]

theorem stepEventDate_ar (d : Dates) (r : FERow) :
    (stepEventDate d r).ar_date = d.ar_date ∧
      (stepEventDate d r).ar_filed_date = d.ar_filed_date := by
  unfold stepEventDate
  split
  · exact ⟨rfl, rfl⟩
  · split <;> exact ⟨rfl, rfl⟩

theorem stepAgmDate_ar (d : Dates) (r : FERow) :
    (stepAgmDate d r).ar_date = d.ar_date ∧
      (stepAgmDate d r).ar_filed_date = d.ar_filed_date := by
  unfold stepAgmDate
  split
  · exact ⟨rfl, rfl⟩
  · split
    · exact ⟨rfl, rfl⟩
    · split <;> exact ⟨rfl, rfl⟩

theorem stepArDate_ar (d : Dates) (r : FERow) :
    ((stepArDate d r).ar_date, (stepArDate d r).ar_filed_date) =
      arPairStep (d.ar_date, d.ar_filed_date) r := by
  obtain ⟨cn, ed, ad, af, gd⟩ := d
  obtain ⟨rc, ts, pe, ga⟩ := r
  cases pe with
  | none => rfl
  | some p =>
      cases ad with
      | none => rfl
      | some a =>
          by_cases h : a < p <;> simp [stepArDate, arPairStep, h]

theorem walkStep_ar (d : Dates) (r : FERow) :
    ((walkStep d r).ar_date, (walkStep d r).ar_filed_date) =
      arPairStep (d.ar_date, d.ar_filed_date) r := by
  unfold walkStep
  rw [(stepAgmDate_ar _ _).1, (stepAgmDate_ar _ _).2]
  rw [stepArDate_ar]
  rw [(stepEventDate_ar d r).1, (stepEventDate_ar d r).2]

theorem stepEventDate_agm_date (d : Dates) (r : FERow) :
    (stepEventDate d r).agm_date = d.agm_date := by
  unfold stepEventDate
  split
  · rfl
  · split <;> rfl

theorem stepArDate_agm_date (d : Dates) (r : FERow) :
    (stepArDate d r).agm_date = d.agm_date := by
  unfold stepArDate
  split
  · rfl
  · split
    · rfl
    · split <;> rfl

theorem stepAgmDate_agm_date (d : Dates) (r : FERow) :
    (stepAgmDate d r).agm_date = optMaxStep d.agm_date r.agm_date := by
  unfold stepAgmDate optMaxStep maxStep
  split
  · rfl
  · split
    · rfl
    · split <;> rfl

theorem walkStep_agm_date (d : Dates) (r : FERow) :
    (walkStep d r).agm_date = optMaxStep d.agm_date r.agm_date := by
  unfold walkStep
  rw [stepAgmDate_agm_date, stepArDate_agm_date, stepEventDate_agm_date]

/-! ### Fold transfer: the walk folds each tracked date independently -/

theorem foldl_walk_corp_num (rows : List FERow) (d : Dates) :
    (rows.foldl walkStep d).corp_num = d.corp_num := by
  induction rows generalizing d with
  | nil => rfl
  | cons r rs ih => rw [List.foldl_cons, ih, walkStep_corp_num]

theorem foldl_walk_event_date (rows : List FERow) (d : Dates) :
    (rows.foldl walkStep d).event_date =
      rows.foldl (fun acc r => maxStep acc r.event_timestmp) d.event_date := by
  induction rows generalizing d with
  | nil => rfl
  | cons r rs ih => rw [List.foldl_cons, ih, walkStep_event_date, List.foldl_cons]

theorem foldl_walk_agm_date (rows : List FERow) (d : Dates) :
    (rows.foldl walkStep d).agm_date =
      rows.foldl (fun acc r => optMaxStep acc r.agm_date) d.agm_date := by
  induction rows generalizing d with
  | nil => rfl
  | cons r rs ih => rw [List.foldl_cons, ih, walkStep_agm_date, List.foldl_cons]

theorem foldl_walk_ar (rows : List FERow) (d : Dates) :
    ((rows.foldl walkStep d).ar_date, (rows.foldl walkStep d).ar_filed_date) =
      rows.foldl arPairStep (d.ar_date, d.ar_filed_date) := by
  induction rows generalizing d with
  | nil => rfl
  | cons r rs ih => rw [List.foldl_cons, ih, walkStep_ar, List.foldl_cons]

/-! ### Characterization of the accumulator folds -/

theorem maxStep_fold_spec (xs : List Nat) (hne : xs ≠ []) :
    ∃ m, xs.foldl maxStep none = some m ∧ m ∈ xs ∧ ∀ x ∈ xs, x ≤ m := by
  induction xs using List.reverseRecOn with
  | nil => exact absurd rfl hne
  | append_singleton ys y ih =>
      rw [List.foldl_append]
      rcases eq_or_ne ys [] with hys | hys
      · subst hys
        exact ⟨y, rfl, by simp⟩
      · obtain ⟨m, hm, hmem, hb⟩ := ih hys
        rw [hm]
        unfold maxStep
        by_cases h : m < y
        · refine ⟨y, by simp [h], by simp, ?_⟩
          intro x hx
          rcases List.mem_append.mp hx with hx | hx
          · exact le_trans (hb x hx) (le_of_lt h)
          · simp only [List.mem_singleton] at hx
            exact le_of_eq hx
        · refine ⟨m, by simp [h], List.mem_append_left _ hmem, ?_⟩
          intro x hx
          rcases List.mem_append.mp hx with hx | hx
          · exact hb x hx
          · simp only [List.mem_singleton] at hx
            exact hx ▸ le_of_not_lt h

theorem optMaxStep_fold_filterMap (rows : List FERow) (acc : Option Nat) :
    rows.foldl (fun a r => optMaxStep a r.agm_date) acc =
      (rows.filterMap FERow.agm_date).foldl maxStep acc := by
  induction rows generalizing acc with
  | nil => rfl
  | cons r rs ih =>
      rw [List.foldl_cons]
      cases hg : r.agm_date with
      | none => rw [ih, List.filterMap_cons_none hg]; rfl
      | some g =>
          rw [ih, List.filterMap_cons_some hg, List.foldl_cons]
          simp [optMaxStep, hg]

theorem arPair_fold_spec (rows : List FERow) :
    (rows.filterMap FERow.period_end_dt = [] →
      rows.foldl arPairStep (none, none) = (none, none)) ∧
    (rows.filterMap FERow.period_end_dt ≠ [] →
      ∃ a fr, rows.foldl arPairStep (none, none) = (some a, some fr.event_timestmp) ∧
        (∀ p ∈ rows.filterMap FERow.period_end_dt, p ≤ a) ∧
        rows.find? (fun q => q.period_end_dt == some a) = some fr) := by
  induction rows using List.reverseRecOn with
  | nil => exact ⟨fun _ => rfl, fun h => absurd rfl h⟩
  | append_singleton ys r ih =>
      rw [List.foldl_append, List.filterMap_append]
      cases hp : r.period_end_dt with
      | none =>
          have hfm : List.filterMap FERow.period_end_dt [r] = [] := by
            simp [List.filterMap, hp]
          rw [hfm, List.append_nil]
          constructor
          · intro hnil
            rw [ih.1 hnil]
            simp [List.foldl_cons, arPairStep, hp]
          · intro hne
            obtain ⟨a, fr, hfold, hbound, hfind⟩ := ih.2 hne
            refine ⟨a, fr, ?_, hbound, ?_⟩
            · rw [hfold]; simp [List.foldl_cons, arPairStep, hp]
            · rw [List.find?_append, hfind]; rfl
      | some p =>
          have hfm : List.filterMap FERow.period_end_dt [r] = [p] := by
            simp [List.filterMap, hp]
          rw [hfm]
          constructor
          · intro hnil
            exact absurd hnil (by simp)
          · intro _
            rcases eq_or_ne (ys.filterMap FERow.period_end_dt) [] with hys | hys
            · rw [ih.1 hys]
              refine ⟨p, r, ?_, ?_, ?_⟩
              · simp [List.foldl_cons, arPairStep, hp]
              · intro q hq
                rw [hys] at hq
                simp only [List.nil_append, List.mem_singleton] at hq
                exact le_of_eq hq
              · have hnone : ys.find? (fun q => q.period_end_dt == some p) = none := by
                  rw [List.find?_eq_none]
                  intro x hx
                  have := List.forall_none_of_filterMap_eq_nil hys x hx
                  simp [this]
                rw [List.find?_append, hnone]
                simp [List.find?, hp]
            · obtain ⟨a, fr, hfold, hbound, hfind⟩ := ih.2 hys
              rw [hfold]
              by_cases hlt : a < p
              · refine ⟨p, r, ?_, ?_, ?_⟩
                · simp [arPairStep, hp, hlt]
                · intro q hq
                  rcases List.mem_append.mp hq with hq | hq
                  · exact le_trans (hbound q hq) (le_of_lt hlt)
                  · simp only [List.mem_singleton] at hq
                    exact le_of_eq hq
                · have hnone : ys.find? (fun q => q.period_end_dt == some p) = none := by
                    rw [List.find?_eq_none]
                    intro x hx
                    cases hxp : x.period_end_dt with
                    | none => simp [hxp]
                    | some q =>
                        have hqmem : q ∈ ys.filterMap FERow.period_end_dt :=
                          List.mem_filterMap.mpr ⟨x, hx, hxp⟩
                        have : q < p := lt_of_le_of_lt (hbound q hqmem) hlt
                        simp [hxp, ne_of_lt this]
                  rw [List.find?_append, hnone]
                  simp [List.find?, hp]
              · refine ⟨a, fr, ?_, ?_, ?_⟩
                · simp [arPairStep, hp, hlt]
                · intro q hq
                  rcases List.mem_append.mp hq with hq | hq
                  · exact hbound q hq
                  · simp only [List.mem_singleton] at hq
                    exact hq ▸ le_of_not_lt hlt
                · rw [List.find?_append, hfind]; rfl

/-! ### Claim theorems -/

/-- What the walk is claimed to compute for one affected corp number, given
the row sequence the cursor returned for it: the latest remaining event
timestamp, the latest remaining non-null period-end date paired with the
event timestamp of the first-seen row carrying it (strict greater-than
comparisons keep the first-seen row among ties authoritative), and,
independently, the latest remaining non-null AGM date. -/
def LatestDates (rows : List FERow) (d : Dates) : Prop :=
  (rows ≠ [] →
    ∃ m, d.event_date = some m ∧ m ∈ rows.map FERow.event_timestmp ∧
      ∀ r ∈ rows, r.event_timestmp ≤ m) ∧
  (rows.filterMap FERow.period_end_dt ≠ [] →
    ∃ a fr, d.ar_date = some a ∧ d.ar_filed_date = some fr.event_timestmp ∧
      (∀ p ∈ rows.filterMap FERow.period_end_dt, p ≤ a) ∧
      rows.find? (fun q => q.period_end_dt == some a) = some fr) ∧
  (rows.filterMap FERow.agm_date ≠ [] →
    ∃ g, d.agm_date = some g ∧ g ∈ rows.filterMap FERow.agm_date ∧
      ∀ x ∈ rows.filterMap FERow.agm_date, x ≤ g)

/-- C1: every record produced by the walk of
`Business._get_last_ar_dates_for_reset` carries, for its corp number, the
latest remaining event timestamp as `event_date`, the latest remaining
non-null period-end date as `ar_date` together with the event timestamp of
the first-seen row among maximal ties as `ar_filed_date`, and,
independently of the AR pair, the latest remaining non-null AGM date as
`agm_date`. -/
theorem reset_walk_latest_dates (query : List Nat → String → List FERow)
    (event_info : List EventInfo) (event_ids : List Nat) (d : Dates)
    (hd : d ∈ get_last_ar_dates_for_reset query event_info event_ids) :
    LatestDates (query event_ids d.corp_num) d := by
  obtain ⟨p, hp, hdp⟩ := List.mem_map.mp hd
  have hcorp : d.corp_num = p.1 := by
    rw [← hdp, foldl_walk_corp_num]
    rfl
  subst hdp
  rw [hcorp]
  set rows := query event_ids p.1 with hrows
  refine ⟨?_, ?_, ?_⟩
  · intro hne
    have hts : rows.map FERow.event_timestmp ≠ [] := by
      simpa using hne
    obtain ⟨m, hm, hmem, hb⟩ := maxStep_fold_spec (rows.map FERow.event_timestmp) hts
    refine ⟨m, ?_, hmem, ?_⟩
    · rw [foldl_walk_event_date]
      rw [List.foldl_map] at hm
      exact hm
    · intro r hr
      exact hb _ (List.mem_map_of_mem _ hr)
  · intro hne
    obtain ⟨a, fr, hfold, hbound, hfind⟩ := (arPair_fold_spec rows).2 hne
    have hpair := foldl_walk_ar rows (emptyDates p.1)
    have hinit : ((emptyDates p.1).ar_date, (emptyDates p.1).ar_filed_date) =
        ((none : Option Nat), (none : Option Nat)) := rfl
    rw [hinit, hfold] at hpair
    exact ⟨a, fr, (Prod.mk.injEq _ _ _ _).mp hpair |>.1,
      (Prod.mk.injEq _ _ _ _).mp hpair |>.2, hbound, hfind⟩
  · intro hne
    obtain ⟨g, hg, hmem, hb⟩ := maxStep_fold_spec (rows.filterMap FERow.agm_date) hne
    refine ⟨g, ?_, hmem, hb⟩
    rw [foldl_walk_agm_date, optMaxStep_fold_filterMap]
    exact hg

/-- A concrete cursor for the C1 witness: two remaining rows for one corp
number, tied on the period-end date. -/
def wQuery : List Nat → String → List FERow :=
  fun _ _ =>
    [{ corp_num := "CP1", event_timestmp := 10, period_end_dt := some 4, agm_date := none },
     { corp_num := "CP1", event_timestmp := 7, period_end_dt := some 4, agm_date := some 2 }]

/-- The event rows being undone in the C1 witness. -/
def wInfo : List EventInfo := [{ corp_num := "CP1", event_id := 99 }]

/-- The record the walk computes in the C1 witness. -/
def wDates : Dates :=
  { corp_num := "CP1", event_date := some 10, ar_date := some 4
    ar_filed_date := some 10, agm_date := some 2 }

/-- Witness for C1 at a concrete cursor. -/
theorem reset_walk_latest_dates_witness :
    wDates ∈ get_last_ar_dates_for_reset wQuery wInfo [99] ∧
      LatestDates (wQuery [99] wDates.corp_num) wDates :=
  ⟨by decide, reset_walk_latest_dates wQuery wInfo [99] wDates (by decide)⟩

/-- The event rows being undone in the C2 failing input: one corp number. -/
def bInfo : List EventInfo := [{ corp_num := "CP2", event_id := 30 }]

/-- The cursor of the C2 failing input: the one remaining Filing/Event row
of the corp number has a period-end date but a null AGM date (an annual
report filed without an AGM). -/
def bQuery : List Nat → String → List FERow :=
  fun _ _ =>
    [{ corp_num := "CP2", event_timestmp := 20, period_end_dt := some 15, agm_date := none }]

/-- C2: at the failing input (all remaining filings of the corp number have
a null AGM date) `Business.reset_corporations` does not fall back to the
recovered AR date: the keyword-argument expression reads the absent
`agm_date` key with bracket indexing and the call dies with a `KeyError`
before any UPDATE is issued. -/
theorem reset_corporations_keyerror_on_missing_agm :
    reset_corporations bQuery bInfo [30] = Except.error "KeyError: agm_date" := by
  rfl

/-- C3: when a corp number has exactly one active `CORP_STATE` row,
`Business.update_corp_state` leaves it with exactly one active row again:
the filter of active rows is precisely the freshly inserted row (started by
the event, carrying the new state code), every previously active row
reappears ended by the event id, and the rows of other corp numbers are
untouched. -/
theorem update_corp_state_single_active (table : List CorpStateRow)
    (event_id : Nat) (corp_num state : String)
    (h : (table.filter (activeFor corp_num)).length = 1) :
    ((update_corp_state table event_id corp_num state).filter (activeFor corp_num) =
      [{ corp_num := corp_num, start_event_id := event_id, end_event_id := none
         state_typ_cd := state }]) ∧
    (∀ r ∈ table, activeFor corp_num r →
      ({ r with end_event_id := some event_id } : CorpStateRow) ∈
        update_corp_state table event_id corp_num state) ∧
    ((update_corp_state table event_id corp_num state).filter
        (fun r => r.corp_num != corp_num) =
      table.filter (fun r => r.corp_num != corp_num)) := by
  unfold update_corp_state
  refine ⟨?_, ?_, ?_⟩
  · rw [List.filter_append]
    have hmap : (table.map
        (fun r => if r.corp_num == corp_num && r.end_event_id == none then
          { r with end_event_id := some event_id } else r)).filter (activeFor corp_num)
        = [] := by
      rw [List.filter_eq_nil_iff]
      intro x hx
      obtain ⟨r, _, hrx⟩ := List.mem_map.mp hx
      subst hrx
      by_cases hc : r.corp_num == corp_num && r.end_event_id == none
      · simp [hc, activeFor]
      · simp only [hc, if_neg, Bool.false_eq_true, not_false_eq_true, if_false]
        simp only [activeFor, Bool.and_eq_true, beq_iff_eq] at hc ⊢
        tauto
    rw [hmap, List.nil_append]
    simp [List.filter, activeFor]
  · intro r hr hact
    refine List.mem_append_left _ (List.mem_map.mpr ⟨r, hr, ?_⟩)
    simp only [activeFor] at hact
    simp [hact]
  · rw [List.filter_append]
    have hnew : List.filter (fun r => r.corp_num != corp_num)
        [({ corp_num := corp_num, start_event_id := event_id, end_event_id := none
            state_typ_cd := state } : CorpStateRow)] = [] := by
      simp [List.filter]
    rw [hnew, List.append_nil, List.filter_map]
    have hpred : ∀ r : CorpStateRow,
        ((fun r : CorpStateRow => r.corp_num != corp_num) ∘
          (fun r => if r.corp_num == corp_num && r.end_event_id == none then
            { r with end_event_id := some event_id } else r)) r =
        (fun r : CorpStateRow => r.corp_num != corp_num) r := by
      intro r
      by_cases hc : r.corp_num == corp_num && r.end_event_id == none
      · simp [Function.comp, hc]
      · simp [Function.comp, hc]
    rw [List.filter_congr (fun r _ => hpred r)]
    have : ∀ r ∈ table.filter (fun r : CorpStateRow => r.corp_num != corp_num),
        (if r.corp_num == corp_num && r.end_event_id == none then
          { r with end_event_id := some event_id } else r) = r := by
      intro r hr
      have := List.of_mem_filter hr
      simp only [bne_iff_ne, ne_eq] at this
      simp [this]
    rw [List.map_congr_left this]
    simp

/-- A one-row table for the C3 witness: the corp number has exactly one
active row. -/
def wTable : List CorpStateRow :=
  [{ corp_num := "CP3", start_event_id := 5, end_event_id := none, state_typ_cd := "ACT" }]

/-- Witness for C3 at a concrete table. -/
theorem update_corp_state_single_active_witness :
    (wTable.filter (activeFor "CP3")).length = 1 ∧
      (((update_corp_state wTable 6 "CP3" "HIS").filter (activeFor "CP3") =
        [{ corp_num := "CP3", start_event_id := 6, end_event_id := none
           state_typ_cd := "HIS" }]) ∧
      (∀ r ∈ wTable, activeFor "CP3" r →
        ({ r with end_event_id := some 6 } : CorpStateRow) ∈
          update_corp_state wTable 6 "CP3" "HIS") ∧
      ((update_corp_state wTable 6 "CP3" "HIS").filter
          (fun r => r.corp_num != "CP3") =
        wTable.filter (fun r => r.corp_num != "CP3"))) :=
  ⟨by decide, update_corp_state_single_active wTable 6 "CP3" "HIS" (by decide)⟩

/-- A prior table in which event id 1 already occurs as a
`start_event_id`. -/
def badTable : List CorpStateRow :=
  [{ corp_num := "CP1", start_event_id := 1, end_event_id := none, state_typ_cd := "ACT" }]

/-- C4 counterexample: on a prior table that already contains the event id
as a `start_event_id`, `reset_corp_states` does not restore the prior
state after `update_corp_state` with that id: the DELETE removes the
pre-existing row together with the freshly inserted one. -/
theorem reset_corp_states_not_exact_reverse :
    reset_corp_states (update_corp_state badTable 1 "CP1" "ACT") [1] ≠ badTable := by
  decide

/-- C4 (amended): `reset_corp_states` with event ids absent from every row
is a no-op, and it exactly reverses a prior `update_corp_state` call for an
event id that does not occur in the prior table (as `start_event_id` or
`end_event_id`): the inserted row is deleted and the rows ended by the
event get their `end_event_id` cleared back to null. -/
theorem reset_corp_states_noop_and_reverses (table : List CorpStateRow)
    (event_ids : List Nat) (e : Nat) (corp_num state : String)
    (habsent : ∀ r ∈ table, r.start_event_id ∉ event_ids ∧
      ∀ x ∈ event_ids, r.end_event_id ≠ some x)
    (hfresh : ∀ r ∈ table, r.start_event_id ≠ e ∧ r.end_event_id ≠ some e) :
    reset_corp_states table event_ids = table ∧
    reset_corp_states (update_corp_state table e corp_num state) [e] = table := by
  constructor
  · unfold reset_corp_states
    split
    · rfl
    · have hfil : table.filter (fun r => !(event_ids.contains r.start_event_id)) =
          table := by
        rw [List.filter_eq_self]
        intro r hr
        simp [List.contains, (habsent r hr).1]
      rw [hfil]
      have : ∀ r ∈ table,
          (match r.end_event_id with
           | some x => if event_ids.contains x then
               ({ r with end_event_id := none } : CorpStateRow) else r
           | none => r) = r := by
        intro r hr
        cases hre : r.end_event_id with
        | none => rfl
        | some x =>
            have : x ∉ event_ids := by
              intro hmem
              exact (habsent r hr).2 x hmem hre
            simp [List.contains, this]
      rw [List.map_congr_left this]
      simp
  · unfold reset_corp_states update_corp_state
    split
    · simp_all
    · rw [List.filter_append]
      have hnewfil : List.filter (fun r => !([e].contains r.start_event_id))
          [({ corp_num := corp_num, start_event_id := e, end_event_id := none
              state_typ_cd := state } : CorpStateRow)] = [] := by
        simp [List.filter]
      have holdfil : (table.map
          (fun r => if r.corp_num == corp_num && r.end_event_id == none then
            { r with end_event_id := some e } else r)).filter
          (fun r => !([e].contains r.start_event_id)) =
          table.map
          (fun r => if r.corp_num == corp_num && r.end_event_id == none then
            { r with end_event_id := some e } else r) := by
        rw [List.filter_eq_self]
        intro x hx
        obtain ⟨r, hr, hrx⟩ := List.mem_map.mp hx
        have hs : x.start_event_id = r.start_event_id := by
          subst hrx
          by_cases hc : r.corp_num == corp_num && r.end_event_id == none <;> simp [hc]
        simp [hs, (hfresh r hr).1]
      rw [hnewfil, List.append_nil, holdfil, List.map_map]
      have : ∀ r ∈ table,
          ((fun r : CorpStateRow =>
            match r.end_event_id with
            | some x => if [e].contains x then
                ({ r with end_event_id := none } : CorpStateRow) else r
            | none => r) ∘
           (fun r => if r.corp_num == corp_num && r.end_event_id == none then
             { r with end_event_id := some e } else r)) r = r := by
        intro r hr
        by_cases hc : r.corp_num == corp_num && r.end_event_id == none
        · simp only [Function.comp, hc, if_pos]
          simp only [Bool.and_eq_true, beq_iff_eq] at hc
          have : r.end_event_id = none := by
            simpa using hc.2
          simp [← this]
        · simp only [Function.comp, hc, Bool.false_eq_true, not_false_eq_true, if_neg]
          cases hre : r.end_event_id with
          | none => rfl
          | some x =>
              have : x ≠ e := by
                intro hxe
                exact (hfresh r hr).2 (hxe ▸ hre)
              simp [this]
      rw [List.map_congr_left this]
      simp

/-- A two-row table for the C4 witness: an active row of one corp number
and an ended row of another. -/
def wTable4 : List CorpStateRow :=
  [{ corp_num := "CP4", start_event_id := 2, end_event_id := none, state_typ_cd := "ACT" },
   { corp_num := "CP5", start_event_id := 3, end_event_id := some 4, state_typ_cd := "HIS" }]

/-- Witness for the amended C4 at a concrete table. -/
theorem reset_corp_states_noop_and_reverses_witness :
    reset_corp_states wTable4 [7, 8] = wTable4 ∧
      reset_corp_states (update_corp_state wTable4 9 "CP4" "HIS") [9] = wTable4 :=
  reset_corp_states_noop_and_reverses wTable4 [7, 8] 9 "CP4" "HIS"
    (by decide) (by decide)

open Classical in
/-- C5: the status resolved by `Business.find_by_identifier` is In Good
Standing exactly under the guard of the source (state description Active,
both dates present, last AR filed date strictly after last AGM date), and
equals the raw state description in every other case. -/
theorem status_in_good_standing_characterization (state : String)
    (arf agm : Option Nat) :
    deriveStatus state arf agm =
      if state = "Active" ∧ ∃ a g, arf = some a ∧ agm = some g ∧ a > g
      then "In Good Standing" else state := by
  cases arf with
  | none => simp [deriveStatus]
  | some a =>
      cases agm with
      | none => simp [deriveStatus]
      | some g =>
          by_cases hs : state = "Active"
          · by_cases hg : a > g
            · simp [deriveStatus, hs, hg]
            · simp [deriveStatus, hs, hg]
          · simp [deriveStatus, hs]

/-- C6: `validation.validate` returns the generic schema error when the
schema check fails; otherwise it walks the document keys in their
encountered order and returns the first error produced by the dedicated
validator of a registry key; when no key belongs to the registry it
returns none. -/
theorem validate_schema_first_then_first_error (v : ValidatorResults)
    (keys : List String) :
    (∀ e, v.schema = some e → validate v keys = some e) ∧
    (v.schema = none →
      validate v keys = (keys.filterMap (fun k =>
        if FILINGS.contains k then dispatchValidator v k else none)).head?) ∧
    (v.schema = none → (∀ k ∈ keys, k ∉ FILINGS) →
      validate v keys = none) := by
  have hmain : v.schema = none →
      validate v keys = (keys.filterMap (fun k =>
        if FILINGS.contains k then dispatchValidator v k else none)).head? := by
    intro hs
    simp only [validate, hs]
    induction keys with
    | nil => rfl
    | cons k ks ih =>
        by_cases hk : k ∈ FILINGS
        · cases hd : dispatchValidator v k with
          | none => simp [validateKeys, hk, hd, List.filterMap_cons, ih]
          | some e => simp [validateKeys, hk, hd, List.filterMap_cons]
        · simp [validateKeys, hk, List.filterMap_cons, ih]
  refine ⟨?_, hmain, ?_⟩
  · intro e he
    simp [validate, he]
  · intro hs hnone
    rw [hmain hs]
    have : keys.filterMap (fun k =>
        if FILINGS.contains k then dispatchValidator v k else none) = [] := by
      rw [List.filterMap_eq_nil_iff]
      intro k hk
      simp [hnone k hk]
    rw [this]
    rfl

/-- The validator outcomes of the C6 witness document: the schema check
passes and the change-of-address validator reports an error. -/
def wVal : ValidatorResults :=
  { schema := none, annualReport := none
    changeOfAddress := some { msg := "bad address" }, changeOfDirectors := none }

/-- The document key order of the C6 witness: an unknown key first. -/
def wKeys : List String := ["somethingElse", "changeOfAddress"]

/-- Witness for C6 at a concrete document. -/
theorem validate_schema_first_then_first_error_witness :
    validate wVal wKeys = (wKeys.filterMap (fun k =>
      if FILINGS.contains k then dispatchValidator wVal k else none)).head? ∧
    validate wVal ["somethingElse"] = none :=
  ⟨(validate_schema_first_then_first_error wVal wKeys).2.1 rfl,
   (validate_schema_first_then_first_error wVal ["somethingElse"]).2.2 rfl
     (by decide)⟩

/-- C7: an identifier matching no corporation row makes
`Business.find_by_identifier` raise `BusinessNotFoundException` (no
business record, partial or otherwise, is returned), and a database
failure is re-raised unchanged. -/
theorem find_by_identifier_not_found_and_reraise (rows : List CorpRow)
    (ledger : Except String (Option Nat)) (ident : String) (hid : ident ≠ "") :
    (mainQuery rows ident = none →
      find_by_identifier (Except.ok rows) ledger (some ident) =
        Except.error (FindErr.notFound ident)) ∧
    (∀ e, find_by_identifier (Except.error e) ledger (some ident) =
      Except.error (FindErr.db e)) := by
  constructor
  · intro hq
    simp [find_by_identifier, hid, hq]
  · intro e
    simp [find_by_identifier, hid]

/-- Witness for C7 at a concrete empty table and a concrete driver
failure. -/
theorem find_by_identifier_not_found_and_reraise_witness :
    find_by_identifier (Except.ok ([] : List CorpRow)) (Except.ok none)
        (some "CP9") = Except.error (FindErr.notFound "CP9") ∧
    find_by_identifier (Except.error "ORA-12541") (Except.ok none)
        (some "CP9") = Except.error (FindErr.db "ORA-12541") :=
  ⟨(find_by_identifier_not_found_and_reraise [] (Except.ok none) "CP9"
      (by decide)).1 rfl,
   (find_by_identifier_not_found_and_reraise [] (Except.ok none) "CP9"
      (by decide)).2 "ORA-12541"⟩

/-- C8: on a non-draft submission whose filing row is already persisted, a
payment-service connection failure yields a 402 response whose body is the
persisted filing JSON plus an errors entry, and the filing row comes out
of the flow unchanged, with no payment token attached. -/
theorem create_invoice_conn_failure_402 (filing : PFiling) (isPost : Bool)
    (hpt : filing.payment_token = none) :
    putAfterSave filing false isPost PayOutcome.connError =
      (filing, filing.fjson ++ [("errors", "unable to create invoice for payment.")],
        402) ∧
    (putAfterSave filing false isPost PayOutcome.connError).1.payment_token = none := by
  refine ⟨rfl, ?_⟩
  simpa [putAfterSave, create_invoice] using hpt

/-- The persisted filing of the C8 witness. -/
def wFiling : PFiling :=
  { fjson := [("filing", "annualReport")], payment_token := none }

/-- Witness for C8 at a concrete persisted filing. -/
theorem create_invoice_conn_failure_402_witness :
    putAfterSave wFiling false true PayOutcome.connError =
      (wFiling, wFiling.fjson ++ [("errors", "unable to create invoice for payment.")],
        402) ∧
    (putAfterSave wFiling false true PayOutcome.connError).1.payment_token = none :=
  create_invoice_conn_failure_402 wFiling true rfl

/-- C9: the business record built by `Business.find_by_identifier`
resolves the jurisdiction of an XCP corporation with jurisdiction code OT
to the free-text description, of any other XCP corporation to its
jurisdiction code, and of every non-XCP corporation to BC; and every row
the resolver query can return has corp type CP. -/
theorem jurisdiction_resolution (row : CorpRow) (rows : List CorpRow)
    (ident : String) (ts : Option Nat) :
    ((buildBusiness row ts).jurisdiction = jurisdictionOf row) ∧
    (row.type = "XCP" → row.can_jur_typ_cd = some "OT" →
      jurisdictionOf row = row.othr_juris_desc) ∧
    (row.type = "XCP" → row.can_jur_typ_cd ≠ some "OT" →
      jurisdictionOf row = row.can_jur_typ_cd) ∧
    (row.type ≠ "XCP" → jurisdictionOf row = some "BC") ∧
    (∀ r, mainQuery rows ident = some r → r.type = "CP") := by
  refine ⟨rfl, ?_, ?_, ?_, ?_⟩
  · intro ht hc
    simp [jurisdictionOf, ht, hc]
  · intro ht hc
    simp [jurisdictionOf, ht, hc]
  · intro ht
    simp [jurisdictionOf, ht]
  · intro r hq
    unfold mainQuery at hq
    cases hf : (rows.filter (fun r => r.type == "CP" && r.identifier == ident)) with
    | nil => rw [hf] at hq; exact absurd hq (by simp)
    | cons r0 rest =>
        rw [hf] at hq
        simp only [List.head?_cons, Option.some.injEq] at hq
        have hmem : r0 ∈ rows.filter (fun r => r.type == "CP" && r.identifier == ident) := by
          rw [hf]; exact List.mem_cons_self _ _
        have h2 := List.of_mem_filter hmem
        simp only [Bool.and_eq_true, beq_iff_eq] at h2
        rw [← hq]
        exact h2.1

/-- The XCP-with-OT row of the C9 witness. -/
def rowXO : CorpRow :=
  { identifier := "XCP0001", type := "XCP", can_jur_typ_cd := some "OT"
    othr_juris_desc := some "Luxembourg", state := "Active"
    last_ar_filed_date := none, last_agm_date := none
    legal_name := some "X One", assumed_name := none }

/-- The XCP-with-code row of the C9 witness. -/
def rowXF : CorpRow :=
  { identifier := "XCP0002", type := "XCP", can_jur_typ_cd := some "AB"
    othr_juris_desc := none, state := "Active"
    last_ar_filed_date := none, last_agm_date := none
    legal_name := some "X Two", assumed_name := none }

/-- The domestic CP row of the C9 witness. -/
def rowCP : CorpRow :=
  { identifier := "CP0007", type := "CP", can_jur_typ_cd := none
    othr_juris_desc := none, state := "Active"
    last_ar_filed_date := none, last_agm_date := none
    legal_name := some "Coop Seven", assumed_name := none }

/-- Witness for C9 at three concrete rows and a concrete query result. -/
theorem jurisdiction_resolution_witness :
    jurisdictionOf rowXO = rowXO.othr_juris_desc ∧
    jurisdictionOf rowXF = rowXF.can_jur_typ_cd ∧
    jurisdictionOf rowCP = some "BC" ∧
    rowCP.type = "CP" :=
  ⟨(jurisdiction_resolution rowXO [] "" none).2.1 rfl rfl,
   (jurisdiction_resolution rowXF [] "" none).2.2.1 rfl (by decide),
   (jurisdiction_resolution rowCP [] "" none).2.2.2.1 (by decide),
   (jurisdiction_resolution rowCP [rowCP] "CP0007" none).2.2.2.2 rowCP rfl⟩

/-- C10: a falsy identifier (Python None or the empty string) makes
`Business.find_by_identifier` return None at once, whatever the database
would answer and without raising: the outcome is independent of both query
outcomes, including failing ones. -/
theorem find_by_identifier_falsy_identifier (db : Except String (List CorpRow))
    (ledger : Except String (Option Nat)) :
    find_by_identifier db ledger none = Except.ok none ∧
    find_by_identifier db ledger (some "") = Except.ok none :=
  ⟨rfl, rfl⟩

end Lear
